import Mathlib

/-!
Verification of the OaaS transition-engine core (package `internal/causality`,
file `handlers.go`, together with the record model of `internal/entities`).

The Go code is shallowly embedded: the database consumed through gorm is a
`Store` holding the persisted record lists in creation order (gorm `Find`
returns rows, and new rows are appended by `Create`); every engine
operation is a pure function from a `Store` to an `Except` result, carrying
the successor store on success.  `uuid.New()` is modelled by a freshness
counter `Store.nextID` rendered through the injective `genID`.  Timestamps
(`CreatedAt`, `ActualizedAt`) play no role in any engine operation and are
omitted.  `encoding/json` is external library code, so the serialized
conditions text is modelled up to the behaviour of `json.Unmarshal`: a text
is either the empty string (on which `json.Unmarshal` fails with
"unexpected end of JSON input"), a well-formed rendering of a predicate
list, or a non-empty malformed text; `parseConditions` maps these to the
unmarshalling outcome.  Scalar condition values are carried by their text
representation (the code compares them as text).
-/

namespace OaaS

/-- Substance record (`entities.Substance`): an independently existing
entity with a name, kind label and essence text. -/
structure Substance where
  id : String
  name : String
  kind : String
  essence : String
deriving DecidableEq, Repr

/-- Attribute record (`entities.Attribute`): a named property definition
with a data-type tag. -/
structure Attribute where
  id : String
  name : String
  description : String
  dataType : String
deriving DecidableEq, Repr

/-- Mode record (`entities.Mode`): a property assignment stating that one
substance has one attribute at one value. -/
structure Mode where
  id : String
  value : String
  substanceID : String
  attributeID : String
deriving DecidableEq, Repr

/-- One predicate of a condition specification (`causality.Condition`).
The Go struct holds `Type`, `Name` and an untyped `Value`; values are
compared through their text representation, which is what `value`
stores here. -/
structure Condition where
  type : String
  name : String
  value : String
deriving DecidableEq, Repr

/-- The serialized conditions text of a potentiality, modelled up to the
behaviour of `json.Unmarshal` into `[]Condition`: the empty string (on
which unmarshalling fails), a well-formed rendering of a predicate list,
or a non-empty text that fails to parse. -/
inductive CondText where
  | emptyText : CondText
  | wellFormed (conds : List Condition) : CondText
  | malformed (raw : String) : CondText
deriving DecidableEq, Repr

/-- Outcome of `json.Unmarshal` on a conditions text: the empty string and
malformed text fail; a well-formed rendering yields its predicate list. -/
def parseConditions : CondText → Option (List Condition)
  | .emptyText => none
  | .wellFormed conds => some conds
  | .malformed _ => none

/-- Whether the conditions text is the empty string (the Go code tests
`conditions != ""` before validating). -/
def CondText.isEmptyText : CondText → Bool
  | .emptyText => true
  | _ => false

/-- Potentiality record (`entities.Potentiality`): a named possible state
of one substance, gated by a serialized condition specification. -/
structure Potentiality where
  id : String
  name : String
  description : String
  conditions : CondText
  substanceID : String
deriving DecidableEq, Repr

/-- Actuality record (`entities.Actuality`): an immutable record that a
potentiality was actualized for its substance. -/
structure Actuality where
  id : String
  description : String
  substanceID : String
  potentialityID : String
deriving DecidableEq, Repr

/-- Causal relation record (`entities.CausalRelation`): a directed edge
between two entity identifiers tagged with a cause kind. -/
structure CausalRelation where
  id : String
  causeType : String
  fromEntity : String
  toEntity : String
deriving DecidableEq, Repr

/-- The persisted database state: the record tables in creation order,
plus the freshness counter modelling `uuid.New()`. -/
structure Store where
  substances : List Substance
  attributes : List Attribute
  modes : List Mode
  potentialities : List Potentiality
  actualities : List Actuality
  relations : List CausalRelation
  nextID : Nat
deriving DecidableEq, Repr

/-- Fresh identifier for the n-th created record: an injective rendering
of the freshness counter (the model of `uuid.New().String()`). -/
def genID (n : Nat) : String :=
  String.mk (List.replicate (n + 1) 'u')

/-- Errors returned by the engine, one tag per distinguishable `fmt.Errorf`
failure of the Go code. -/
inductive EngineError where
  | potentialityNotFound : EngineError
  | invalidConditionsFormat : EngineError
  | substanceNotFound : EngineError
  | conditionsNotMet (unmet : List String) : EngineError
  | invalidCauseType (t : String) : EngineError
deriving DecidableEq, Repr

/-- Database state after a call: the successor store on success; on error
the Go code has returned before reaching any `Create`, so the state is the
input store. -/
def storeAfter {α : Type} (s : Store) : Except EngineError (α × Store) → Store
  | .ok (_, s') => s'
  | .error _ => s

/-- Whether mode `m` is joined to an attribute named `name` (the SQL join
`JOIN attributes ON modes.attribute_id = attributes.id` with
`attributes.name = ?`). -/
def attrNameOfMode (s : Store) (m : Mode) (name : String) : Bool :=
  s.attributes.any (fun a => a.id == m.attributeID && a.name == name)

/-- The first mode of the substance joined to an attribute with the given
name (the `First` query of `checkAttributeCondition`). -/
def findAttrMode (s : Store) (substanceID name : String) : Option Mode :=
  s.modes.find? (fun m => m.substanceID == substanceID && attrNameOfMode s m name)

/-- `Engine.checkAttributeCondition`: look up the substance's assignment of
the named attribute and compare its value (as text) to the expected one. -/
def checkAttributeCondition (s : Store) (substanceID : String) (c : Condition) :
    Bool × String :=
  match findAttrMode s substanceID c.name with
  | none => (false, "attribute \x27" ++ c.name ++ "\x27 not found for substance")
  | some m =>
    if m.value == c.value then (true, "")
    else (false, "attribute \x27" ++ c.name ++ "\x27 has value \x27" ++ m.value
                  ++ "\x27, expected \x27" ++ c.value ++ "\x27")

/-- The `Count` query of `Engine.checkModeCondition`: how many modes of the
substance are joined to the named attribute and carry the expected value. -/
def countModeMatches (s : Store) (substanceID : String) (c : Condition) : Nat :=
  (s.modes.filter (fun m =>
    m.substanceID == substanceID && attrNameOfMode s m c.name && m.value == c.value)).length

/-- `Engine.checkModeCondition`: pass when at least one matching assignment
exists. -/
def checkModeCondition (s : Store) (substanceID : String) (c : Condition) :
    Bool × String :=
  if countModeMatches s substanceID c == 0 then
    (false, "mode condition not met: " ++ c.name ++ " = " ++ c.value)
  else (true, "")

/-- `Engine.checkSingleCondition`: dispatch on the predicate's `type` tag;
`external` always passes, unknown tags fail closed. -/
def checkSingleCondition (s : Store) (substanceID : String) (c : Condition) :
    Bool × String :=
  if c.type = "attribute" then checkAttributeCondition s substanceID c
  else if c.type = "mode" then checkModeCondition s substanceID c
  else if c.type = "external" then (true, "")
  else (false, "unknown condition type: " ++ c.type)

/-- The condition loop of `Engine.CheckConditions`: every predicate is
evaluated, the verdict is the conjunction, and the reasons of all failing
predicates are collected in order. -/
def evalConditions (s : Store) (substanceID : String) :
    List Condition → Bool × List String
  | [] => (true, [])
  | c :: rest =>
    let r := checkSingleCondition s substanceID c
    let tailRes := evalConditions s substanceID rest
    if r.1 then tailRes else (false, r.2 :: tailRes.2)

/-- Lookup of a potentiality by identifier (`First(&potentiality, "id = ?")`). -/
def findPotentiality (s : Store) (pid : String) : Option Potentiality :=
  s.potentialities.find? (fun p => p.id == pid)

namespace Engine

/-- `Engine.CheckConditions`: load the potentiality, unmarshal its
conditions text, and evaluate every predicate against the current store.
The call performs no write, so the store comes back unchanged. -/
def CheckConditions (s : Store) (potentialityID : String) :
    Except EngineError ((Bool × List String) × Store) :=
  match findPotentiality s potentialityID with
  | none => .error .potentialityNotFound
  | some p =>
    match parseConditions p.conditions with
    | none => .error .invalidConditionsFormat
    | some conds => .ok (evalConditions s p.substanceID conds, s)

/-- `entities.NewActuality`, with `uuid.New()` modelled by the freshness
counter. -/
def NewActuality (freshID : Nat) (description substanceID potentialityID : String) :
    Actuality :=
  { id := genID freshID, description := description,
    substanceID := substanceID, potentialityID := potentialityID }

/-- `Engine.ActualizePotentiality`: re-check the conditions, fail carrying
the unmet reasons when they do not hold, otherwise re-fetch the
potentiality and persist a new actuality referencing it. -/
def ActualizePotentiality (s : Store) (potentialityID description : String) :
    Except EngineError (Actuality × Store) :=
  match CheckConditions s potentialityID with
  | .error e => .error e
  | .ok ((canActualize, unmetConditions), s₁) =>
    if !canActualize then .error (.conditionsNotMet unmetConditions)
    else
      match findPotentiality s₁ potentialityID with
      | none => .error .potentialityNotFound
      | some p =>
        let actuality := NewActuality s₁.nextID description p.substanceID potentialityID
        .ok (actuality,
             { s₁ with actualities := s₁.actualities ++ [actuality],
                       nextID := s₁.nextID + 1 })

/-- `entities.NewPotentiality`, with `uuid.New()` modelled by the freshness
counter. -/
def NewPotentiality (freshID : Nat) (name description : String) (conditions : CondText)
    (substanceID : String) : Potentiality :=
  { id := genID freshID, name := name, description := description,
    conditions := conditions, substanceID := substanceID }

/-- `Engine.CreatePotentiality`: require the substance to exist, validate a
non-empty conditions text by unmarshalling it, then persist the new
potentiality carrying exactly the given fields. -/
def CreatePotentiality (s : Store) (name description : String) (conditions : CondText)
    (substanceID : String) : Except EngineError (Potentiality × Store) :=
  match s.substances.find? (fun sub => sub.id == substanceID) with
  | none => .error .substanceNotFound
  | some _ =>
    if !conditions.isEmptyText && (parseConditions conditions).isNone then
      .error .invalidConditionsFormat
    else
      let p := NewPotentiality s.nextID name description conditions substanceID
      .ok (p, { s with potentialities := s.potentialities ++ [p],
                       nextID := s.nextID + 1 })

/-- The four admissible cause kinds (`validTypes` in `AddCausalRelation`). -/
def validCauseTypes : List String := ["material", "formal", "efficient", "final"]

/-- `entities.NewCausalRelation`, with `uuid.New()` modelled by the
freshness counter. -/
def NewCausalRelation (freshID : Nat) (causeType fromEntity toEntity : String) :
    CausalRelation :=
  { id := genID freshID, causeType := causeType,
    fromEntity := fromEntity, toEntity := toEntity }

/-- `Engine.AddCausalRelation`: reject a cause kind outside the fixed four,
otherwise persist the edge (no uniqueness enforcement). -/
def AddCausalRelation (s : Store) (fromEntity toEntity causeType : String) :
    Except EngineError (CausalRelation × Store) :=
  if validCauseTypes.contains causeType then
    let r := NewCausalRelation s.nextID causeType fromEntity toEntity
    .ok (r, { s with relations := s.relations ++ [r], nextID := s.nextID + 1 })
  else .error (.invalidCauseType causeType)

end Engine

/-- Go map assignment `m[k] = v` on the association-list model of
`map[string]string`. -/
def mapSet (m : List (String × String)) (k v : String) : List (String × String) :=
  match m with
  | [] => [(k, v)]
  | (k₀, v₀) :: rest => if k₀ == k then (k, v) :: rest else (k₀, v₀) :: mapSet rest k v

/-- Go map lookup `m[k]` on the association-list model of
`map[string]string`. -/
def mapGet (m : List (String × String)) (k : String) : Option String :=
  match m with
  | [] => none
  | (k₀, v₀) :: rest => if k₀ == k then some v₀ else mapGet rest k

/-- The `Where("from_entity = ? OR to_entity = ?")` query of
`GetFourCauses`: all edges touching the given identifier, in creation
order. -/
def relatedRelations (s : Store) (substanceID : String) : List CausalRelation :=
  s.relations.filter (fun r => r.fromEntity == substanceID || r.toEntity == substanceID)

namespace Engine

/-- `Engine.GetFourCauses`: fold the related edges into a map from cause
kind to the edge's `to` endpoint, the later edge overwriting the earlier. -/
def GetFourCauses (s : Store) (substanceID : String) : List (String × String) :=
  (relatedRelations s substanceID).foldl
    (fun causes r => mapSet causes r.causeType r.toEntity) []

end Engine

/-!
Concrete fixtures used by the closed evaluation theorems below.  They mirror
the repository's own test data (`causality_test.go`): a substance `s1`
(Tree-001), an attribute `color`, assignments of `green` and `red`,
and a potentiality `p1` gated by the single mode predicate color = green.
-/

def demoSub : Substance := ⟨"s1", "Tree-001", "Oak", "Living organism"⟩

def demoAttr : Attribute := ⟨"a1", "color", "Visual property", "string"⟩

def greenMode : Mode := ⟨"m1", "green", "s1", "a1"⟩

def redMode : Mode := ⟨"m0", "red", "s1", "a1"⟩

def demoCondGreen : Condition := ⟨"mode", "color", "green"⟩

def potGreen : Potentiality :=
  ⟨"p1", "Grow Leaves", "Tree can grow leaves", .wellFormed [demoCondGreen], "s1"⟩

def storeMet : Store := ⟨[demoSub], [demoAttr], [greenMode], [potGreen], [], [], 7⟩

def storeUnmet : Store := ⟨[demoSub], [demoAttr], [], [potGreen], [], [], 7⟩

def storeDup : Store := ⟨[demoSub], [demoAttr], [redMode, greenMode], [], [], [], 0⟩

def potEmptyText : Potentiality := ⟨"pText", "GrowE", "empty text", .emptyText, "s1"⟩

def potEmptyList : Potentiality := ⟨"pList", "GrowL", "empty list", .wellFormed [], "s1"⟩

def storeEmptyCond : Store :=
  ⟨[demoSub], [demoAttr], [greenMode], [potEmptyText, potEmptyList], [], [], 3⟩

def emptyStore : Store := ⟨[], [], [], [], [], [], 0⟩

def relXY : CausalRelation := Engine.NewCausalRelation 0 "material" "X" "Y"

def storeXY : Store := ⟨[], [], [], [], [], [relXY], 1⟩

def relXZ : CausalRelation := Engine.NewCausalRelation 1 "material" "X" "Z"

def storeXYZ : Store := ⟨[], [], [], [], [], [relXY, relXZ], 2⟩

def edgeWX : CausalRelation := ⟨"e1", "material", "W", "X"⟩

def storeEdgeWX : Store := ⟨[], [], [], [], [], [edgeWX], 0⟩

def firstAct : Actuality := Engine.NewActuality 7 "first leaves" "s1" "p1"

def storeAfterFirst : Store :=
  ⟨[demoSub], [demoAttr], [greenMode], [potGreen], [firstAct], [], 8⟩

def storeNoSub : Store := ⟨[], [], [], [], [], [], 0⟩

def createdPot : Potentiality := Engine.NewPotentiality 7 "n" "d" (.wellFormed []) "s1"

def storeMetPlusPot : Store :=
  ⟨[demoSub], [demoAttr], [greenMode], [potGreen, createdPot], [], [], 8⟩

/-!
Helper lemmas: frame properties of the evaluator, inversion of
`CheckConditions`, injectivity of the freshness rendering, and the
last-write-wins characterisation of the causes map fold.
-/

theorem checkSingleCondition_frame (s : Store) (A : List Actuality) (N : Nat) (eid : String)
    (c : Condition) :
    checkSingleCondition { s with actualities := A, nextID := N } eid c
      = checkSingleCondition s eid c := rfl

theorem evalConditions_frame (s : Store) (A : List Actuality) (N : Nat) (eid : String)
    (cs : List Condition) :
    evalConditions { s with actualities := A, nextID := N } eid cs
      = evalConditions s eid cs := by
  induction cs with
  | nil => rfl
  | cons c rest ih =>
    simp only [evalConditions]
    rw [checkSingleCondition_frame, ih]

theorem checkConditions_ok_inv {s s' : Store} {pid : String} {b : Bool} {um : List String}
    (h : Engine.CheckConditions s pid = .ok ((b, um), s')) :
    s' = s ∧ ∃ p conds, findPotentiality s pid = some p
      ∧ parseConditions p.conditions = some conds
      ∧ evalConditions s p.substanceID conds = (b, um) := by
  unfold Engine.CheckConditions at h
  split at h
  · exact absurd h (by simp)
  · rename_i p hfp
    split at h
    · exact absurd h (by simp)
    · rename_i conds hpc
      simp only [Except.ok.injEq, Prod.mk.injEq] at h
      exact ⟨h.2.symm, p, conds, hfp, hpc, h.1⟩

theorem checkModeCondition_pass (s : Store) (eid : String) (c : Condition)
    (hrec : ∃ m ∈ s.modes, m.substanceID = eid ∧ m.value = c.value
      ∧ ∃ a ∈ s.attributes, a.id = m.attributeID ∧ a.name = c.name) :
    (checkModeCondition s eid c).1 = true := by
  rcases hrec with ⟨m, hm, hsub, hval, a, ha, haid, hanm⟩
  have hmem : m ∈ s.modes.filter (fun m' =>
      m'.substanceID == eid && attrNameOfMode s m' c.name && m'.value == c.value) := by
    refine List.mem_filter.mpr ⟨hm, ?_⟩
    simp only [Bool.and_eq_true, beq_iff_eq]
    refine ⟨⟨hsub, ?_⟩, hval⟩
    simp only [attrNameOfMode, List.any_eq_true, Bool.and_eq_true, beq_iff_eq]
    exact ⟨a, ha, haid, hanm⟩
  have hpos : countModeMatches s eid c ≠ 0 := by
    unfold countModeMatches
    intro h0
    rw [List.length_eq_zero] at h0
    rw [h0] at hmem
    exact absurd hmem (List.not_mem_nil m)
  unfold checkModeCondition
  simp [beq_iff_eq, hpos]

theorem checkAttributeCondition_pass_iff (s : Store) (eid : String) (c : Condition) :
    (checkAttributeCondition s eid c).1 = true
      ↔ ∃ m, findAttrMode s eid c.name = some m ∧ m.value = c.value := by
  unfold checkAttributeCondition
  cases hf : findAttrMode s eid c.name with
  | none => simp
  | some m =>
    by_cases hv : m.value = c.value
    · have hb : (m.value == c.value) = true := beq_iff_eq.mpr hv
      simp only [hb, if_true]
      constructor
      · intro _
        exact ⟨m, rfl, hv⟩
      · intro _
        trivial
    · have hb : (m.value == c.value) = false := by simp [hv]
      simp only [hb, Bool.false_eq_true, if_false]
      constructor
      · intro habs
        exact absurd habs (by simp)
      · rintro ⟨m', hm', hv'⟩
        rw [Option.some.injEq] at hm'
        exact absurd (hm' ▸ hv') hv

theorem genID_length (n : Nat) : (genID n).length = n + 1 := by
  simp [genID, String.length]

theorem genID_inj {n m : Nat} (h : genID n = genID m) : n = m := by
  have hl := congrArg String.length h
  rw [genID_length, genID_length] at hl
  omega

theorem mapGet_mapSet_self (m : List (String × String)) (k v : String) :
    mapGet (mapSet m k v) k = some v := by
  induction m with
  | nil => simp [mapSet, mapGet]
  | cons kv rest ih =>
    rcases kv with ⟨k₀, v₀⟩
    by_cases h : (k₀ == k) = true
    · simp [mapSet, h, mapGet]
    · have h' : (k₀ == k) = false := by simpa using h
      simp [mapSet, h', mapGet, ih]

theorem mapGet_mapSet_ne (m : List (String × String)) (k₀ v k : String)
    (h : (k₀ == k) = false) :
    mapGet (mapSet m k₀ v) k = mapGet m k := by
  induction m with
  | nil => simp [mapSet, mapGet, h]
  | cons kv rest ih =>
    rcases kv with ⟨k₁, v₁⟩
    by_cases h1 : (k₁ == k₀) = true
    · have hk : k₁ = k₀ := by simpa using h1
      subst hk
      simp [mapSet, h1, mapGet, h]
    · have h1' : (k₁ == k₀) = false := by simpa using h1
      by_cases h2 : (k₁ == k) = true
      · simp [mapSet, h1', mapGet, h2, ih]
      · have h2' : (k₁ == k) = false := by simpa using h2
        simp [mapSet, h1', mapGet, h2', ih]

theorem getLast?_cons_or {α : Type} (l : List α) (a : α) :
    (a :: l).getLast? = l.getLast?.or (some a) := by
  induction l generalizing a with
  | nil => rfl
  | cons b l ih =>
    rw [List.getLast?_cons_cons, ih b]
    cases h : l.getLast? <;> rfl

theorem filter_cons_true {α : Type} (p : α → Bool) (a : α) (l : List α) (h : p a = true) :
    (a :: l).filter p = a :: l.filter p := by
  simp [List.filter_cons, h]

theorem filter_cons_false {α : Type} (p : α → Bool) (a : α) (l : List α) (h : p a = false) :
    (a :: l).filter p = l.filter p := by
  simp [List.filter_cons, h]

theorem mapGet_fold_causes (rels : List CausalRelation) (m : List (String × String))
    (k : String) :
    mapGet (rels.foldl (fun causes r => mapSet causes r.causeType r.toEntity) m) k
      = (((rels.filter (fun r => r.causeType == k)).map (fun r => r.toEntity)).getLast?).or
          (mapGet m k) := by
  induction rels generalizing m with
  | nil => simp
  | cons r rest ih =>
    simp only [List.foldl_cons]
    rw [ih]
    cases hk : (r.causeType == k) with
    | true =>
      have hkeq : r.causeType = k := by simpa using hk
      rw [filter_cons_true (fun r : CausalRelation => r.causeType == k) r rest hk, List.map_cons,
          getLast?_cons_or, hkeq, mapGet_mapSet_self]
      cases hX : ((rest.filter (fun r => r.causeType == k)).map (fun r => r.toEntity)).getLast?
        <;> rfl
    | false =>
      rw [filter_cons_false (fun r : CausalRelation => r.causeType == k) r rest hk,
          mapGet_mapSet_ne m r.causeType r.toEntity k hk]

theorem mapGet_getFourCauses (s : Store) (x k : String) :
    mapGet (Engine.GetFourCauses s x) k
      = (((relatedRelations s x).filter (fun r => r.causeType == k)).map
          (fun r => r.toEntity)).getLast? := by
  unfold Engine.GetFourCauses
  rw [mapGet_fold_causes]
  simp [mapGet]

/-!
Claim theorems.  Each theorem below settles one claim of the specification
review; the `_checked` theorems run the corresponding claim theorem on a
concrete store.
-/

/-- Claim C1: when CheckConditions on a potentiality reports ready = false with a list of unmet conditions, ActualizePotentiality on the same store fails with an error carrying exactly those unmet conditions, performs no write, and in particular creates no actuality record. -/
theorem actualize_not_ready_fails (s sr : Store) (pid d : String) (unmet : List String)
    (h : Engine.CheckConditions s pid = .ok ((false, unmet), sr)) :
    Engine.ActualizePotentiality s pid d = .error (.conditionsNotMet unmet)
    ∧ storeAfter s (Engine.ActualizePotentiality s pid d) = s
    ∧ (storeAfter s (Engine.ActualizePotentiality s pid d)).actualities = s.actualities := by
  have hact : Engine.ActualizePotentiality s pid d = .error (.conditionsNotMet unmet) := by
    unfold Engine.ActualizePotentiality
    rw [h]
    rfl
  exact ⟨hact, by rw [hact]; rfl, by rw [hact]; rfl⟩

/-- Concrete run of the C1 theorem: on a store where the mode predicate color = green has no matching assignment, Actualize fails with the single unmet reason and the store is untouched. -/
theorem actualize_not_ready_fails_checked :
    Engine.ActualizePotentiality storeUnmet "p1" "outcome"
      = .error (.conditionsNotMet ["mode condition not met: color = green"])
    ∧ storeAfter storeUnmet (Engine.ActualizePotentiality storeUnmet "p1" "outcome")
        = storeUnmet :=
  have h := actualize_not_ready_fails storeUnmet storeUnmet "p1" "outcome"
    ["mode condition not met: color = green"] rfl
  ⟨h.1, h.2.1⟩

/-- Claim C2: for every store, entity and predicate list, the verdict of the condition loop is true iff every predicate passes, the unmet-reason list holds exactly one reason per failing predicate in order (no short-circuit: failures after the first still contribute), and the reason list is empty whenever the verdict is true. -/
theorem evalConditions_conjunction (s : Store) (eid : String) (cs : List Condition) :
    ((evalConditions s eid cs).1 = true ↔ ∀ c ∈ cs, (checkSingleCondition s eid c).1 = true)
    ∧ (evalConditions s eid cs).2
        = (cs.filter (fun c => !(checkSingleCondition s eid c).1)).map
            (fun c => (checkSingleCondition s eid c).2)
    ∧ ((evalConditions s eid cs).1 = true → (evalConditions s eid cs).2 = []) := by
  induction cs with
  | nil => simp [evalConditions]
  | cons c rest ih =>
    obtain ⟨ih1, ih2, _⟩ := ih
    by_cases hc : (checkSingleCondition s eid c).1 = true
    · have he : evalConditions s eid (c :: rest) = evalConditions s eid rest := by
        simp [evalConditions, hc]
      refine ⟨?_, ?_, ?_⟩
      · rw [he, ih1]
        constructor
        · intro hrest c' hc'
          rcases List.mem_cons.mp hc' with h' | h'
          · rw [h']; exact hc
          · exact hrest c' h'
        · intro hall c' h'
          exact hall c' (List.mem_cons_of_mem _ h')
      · rw [he, ih2, List.filter_cons]
        simp [hc]
      · intro hv
        rw [he, ih2]
        rw [he] at hv
        have hall := ih1.mp hv
        have hfil : rest.filter (fun c => !(checkSingleCondition s eid c).1) = [] := by
          simp only [List.filter_eq_nil_iff]
          intro a ha
          simp [hall a ha]
        rw [hfil]; rfl
    · have hc' : (checkSingleCondition s eid c).1 = false := by
        simpa using hc
      have he : evalConditions s eid (c :: rest)
          = (false, (checkSingleCondition s eid c).2 :: (evalConditions s eid rest).2) := by
        simp [evalConditions, hc']
      refine ⟨?_, ?_, ?_⟩
      · rw [he]
        refine ⟨fun hfalse => absurd hfalse (by simp),
                fun hall => absurd (hall c (List.mem_cons_self c rest)) hc⟩
      · rw [he, ih2, List.filter_cons]
        simp [hc']
      · intro hv
        rw [he] at hv
        simp at hv

/-- Concrete run of the C2 theorem: on the satisfied fixture the reason list is empty. -/
theorem evalConditions_conjunction_checked :
    (evalConditions storeMet "s1" [demoCondGreen]).2 = [] :=
  (evalConditions_conjunction storeMet "s1" [demoCondGreen]).2.2 (by decide)

/-- Counterexample to claim C3 as stated: in `storeDup` the substance s1 has (color, green) recorded through `greenMode`, yet the `attribute` predicate color = green fails, because the lookup returns the first joined assignment, which is `redMode` with value red. -/
theorem attribute_check_duplicate_cex :
    (greenMode ∈ storeDup.modes ∧ greenMode.substanceID = "s1" ∧ greenMode.value = "green"
      ∧ demoAttr ∈ storeDup.attributes ∧ demoAttr.id = greenMode.attributeID
      ∧ demoAttr.name = "color")
    ∧ (checkSingleCondition storeDup "s1" ⟨"attribute", "color", "green"⟩).1 = false := by
  decide

/-- Claim C3 as amended: whenever entity E has property P = V recorded, the `mode` predicate (name = P, value = V) passes; the `attribute` predicate passes exactly when the assignment returned by the store lookup (the first joined match for P) carries value V, so with duplicate assignments for P it can fail. -/
theorem recorded_property_checks (s : Store) (eid nm v : String)
    (hrec : ∃ m ∈ s.modes, m.substanceID = eid ∧ m.value = v
      ∧ ∃ a ∈ s.attributes, a.id = m.attributeID ∧ a.name = nm) :
    (checkSingleCondition s eid ⟨"mode", nm, v⟩).1 = true
    ∧ ((checkSingleCondition s eid ⟨"attribute", nm, v⟩).1 = true
        ↔ ∃ m, findAttrMode s eid nm = some m ∧ m.value = v) := by
  have hmode : checkSingleCondition s eid ⟨"mode", nm, v⟩
      = checkModeCondition s eid ⟨"mode", nm, v⟩ := rfl
  have hattr : checkSingleCondition s eid ⟨"attribute", nm, v⟩
      = checkAttributeCondition s eid ⟨"attribute", nm, v⟩ := rfl
  rw [hmode, hattr]
  exact ⟨checkModeCondition_pass s eid ⟨"mode", nm, v⟩ hrec,
         checkAttributeCondition_pass_iff s eid ⟨"attribute", nm, v⟩⟩

/-- Concrete run of the C3 theorem: on a store whose only color assignment is green, both predicates pass. -/
theorem recorded_property_checks_checked :
    (checkSingleCondition storeMet "s1" ⟨"mode", "color", "green"⟩).1 = true
    ∧ (checkSingleCondition storeMet "s1" ⟨"attribute", "color", "green"⟩).1 = true := by
  have h := recorded_property_checks storeMet "s1" "color" "green"
    ⟨greenMode, by decide, rfl, rfl, demoAttr, by decide, rfl, rfl⟩
  exact ⟨h.1, h.2.mpr ⟨greenMode, by decide, by decide⟩⟩

/-- Claim C4 evaluated on the code: a potentiality whose conditions text is the empty string makes CheckConditions and Actualize fail with the invalid-format error (json.Unmarshal of "" fails), while the empty predicate list "[]" behaves as claimed: ready = true with no unmet conditions, and Actualize succeeds. -/
theorem empty_conditions_text_errors :
    Engine.CheckConditions storeEmptyCond "pText" = .error .invalidConditionsFormat
    ∧ Engine.ActualizePotentiality storeEmptyCond "pText" "d" = .error .invalidConditionsFormat
    ∧ Engine.CheckConditions storeEmptyCond "pList" = .ok ((true, []), storeEmptyCond)
    ∧ (Engine.ActualizePotentiality storeEmptyCond "pList" "d").isOk = true :=
  ⟨rfl, rfl, rfl, rfl⟩

/-- Claim C5: a successful CheckConditions returns the store unchanged, so running it again against that store yields the identical verdict and unmet-condition list (evaluation is deterministic and free of store side effects). -/
theorem checkConditions_deterministic (s s' : Store) (pid : String) (r : Bool × List String)
    (h : Engine.CheckConditions s pid = .ok (r, s')) :
    s' = s ∧ Engine.CheckConditions s' pid = .ok (r, s') := by
  rcases r with ⟨b, um⟩
  obtain ⟨hss, -⟩ := checkConditions_ok_inv h
  subst hss
  exact ⟨rfl, h⟩

/-- Concrete run of the C5 theorem on the satisfied fixture. -/
theorem checkConditions_deterministic_checked :
    storeMet = storeMet
    ∧ Engine.CheckConditions storeMet "p1" = .ok ((true, []), storeMet) :=
  checkConditions_deterministic storeMet storeMet "p1" ((true, [])) rfl

/-- Claim C6: CreatePotentiality fails with a not-found error when the substance does not exist and with the invalid-format error when a non-empty conditions text fails to parse, leaving the store unchanged in both cases; on success the persisted record carries exactly the given name, description, conditions text and substance reference, appended to the potentiality table. -/
theorem createPotentiality_validation (s : Store) (nm d : String) (c : CondText) (eid : String) :
    (s.substances.find? (fun sub => sub.id == eid) = none →
       Engine.CreatePotentiality s nm d c eid = .error .substanceNotFound
       ∧ storeAfter s (Engine.CreatePotentiality s nm d c eid) = s)
    ∧ (c.isEmptyText = false → parseConditions c = none →
       (s.substances.find? (fun sub => sub.id == eid)).isSome = true →
       Engine.CreatePotentiality s nm d c eid = .error .invalidConditionsFormat
       ∧ storeAfter s (Engine.CreatePotentiality s nm d c eid) = s)
    ∧ (∀ p s₂, Engine.CreatePotentiality s nm d c eid = .ok (p, s₂) →
       p.name = nm ∧ p.description = d ∧ p.conditions = c ∧ p.substanceID = eid
       ∧ s₂.potentialities = s.potentialities ++ [p]) := by
  refine ⟨?_, ?_, ?_⟩
  · intro hnone
    have h : Engine.CreatePotentiality s nm d c eid = .error .substanceNotFound := by
      simp [Engine.CreatePotentiality, hnone]
    exact ⟨h, by rw [h]; rfl⟩
  · intro hne hpc hsome
    rcases Option.isSome_iff_exists.mp hsome with ⟨sub, hsub⟩
    have h : Engine.CreatePotentiality s nm d c eid = .error .invalidConditionsFormat := by
      simp [Engine.CreatePotentiality, hsub, hne, hpc]
    exact ⟨h, by rw [h]; rfl⟩
  · intro p s₂ hok
    unfold Engine.CreatePotentiality at hok
    split at hok
    · exact absurd hok (by simp)
    · split at hok
      · exact absurd hok (by simp)
      · simp only [Except.ok.injEq, Prod.mk.injEq] at hok
        obtain ⟨hp, hs⟩ := hok
        subst hp
        refine ⟨rfl, rfl, rfl, rfl, ?_⟩
        rw [← hs]

/-- Concrete runs of the C6 theorem: missing substance, malformed conditions text, and a successful creation. -/
theorem createPotentiality_validation_checked :
    Engine.CreatePotentiality storeNoSub "n" "d" (.wellFormed []) "sX"
      = .error .substanceNotFound
    ∧ Engine.CreatePotentiality storeMet "n" "d" (.malformed "[") "s1"
        = .error .invalidConditionsFormat
    ∧ (createdPot.name = "n" ∧ createdPot.description = "d"
        ∧ createdPot.conditions = .wellFormed [] ∧ createdPot.substanceID = "s1"
        ∧ storeMetPlusPot.potentialities = storeMet.potentialities ++ [createdPot]) :=
  ⟨((createPotentiality_validation storeNoSub "n" "d" (.wellFormed []) "sX").1 rfl).1,
   ((createPotentiality_validation storeMet "n" "d" (.malformed "[") "s1").2.1 rfl rfl rfl).1,
   (createPotentiality_validation storeMet "n" "d" (.wellFormed []) "s1").2.2
     createdPot storeMetPlusPot rfl⟩

/-- Claim C7: GetFourCauses folds exactly the edges whose from- or to-endpoint equals the queried identifier into a map from cause kind to the to-endpoint of the last such edge in creation order (last-write-wins per kind); in particular adding X->Y then X->Z, both material, makes the summary map material to Z. -/
theorem getFourCauses_last_write_wins :
    (∀ (s : Store) (x k : String),
       mapGet (Engine.GetFourCauses s x) k
         = (((relatedRelations s x).filter (fun r => r.causeType == k)).map
             (fun r => r.toEntity)).getLast?)
    ∧ (∀ (s₀ : Store) (rY : CausalRelation) (sY : Store) (rZ : CausalRelation) (sZ : Store),
        Engine.AddCausalRelation s₀ "X" "Y" "material" = .ok (rY, sY) →
        Engine.AddCausalRelation sY "X" "Z" "material" = .ok (rZ, sZ) →
        mapGet (Engine.GetFourCauses sZ "X") "material" = some "Z") := by
  refine ⟨mapGet_getFourCauses, ?_⟩
  intro s₀ rY sY rZ sZ h1 h2
  simp only [Engine.AddCausalRelation] at h1 h2
  rw [if_pos (by decide)] at h1
  rw [if_pos (by decide)] at h2
  simp only [Except.ok.injEq, Prod.mk.injEq] at h1 h2
  obtain ⟨hrY, hsY⟩ := h1
  obtain ⟨hrZ, hsZ⟩ := h2
  subst hrY
  subst hsY
  subst hrZ
  subst hsZ
  rw [mapGet_getFourCauses]
  simp only [relatedRelations]
  simp [List.filter_append, List.map_append, List.filter_cons, Engine.NewCausalRelation]

/-- Concrete run of the C7 scenario starting from the empty store. -/
theorem getFourCauses_last_write_wins_checked :
    mapGet (Engine.GetFourCauses storeXYZ "X") "material" = some "Z" :=
  getFourCauses_last_write_wins.2 emptyStore relXY storeXY relXZ storeXYZ rfl rfl

/-- Claim C8: after a successful actualization, a second ActualizePotentiality on the resulting store succeeds as well, appending a second actuality record that references the same potentiality and carries a fresh identifier distinct from the first; nothing prevents double actualization. -/
theorem actualize_twice_succeeds (s : Store) (pid d₁ d₂ : String) (a₁ : Actuality)
    (s₁ : Store)
    (h : Engine.ActualizePotentiality s pid d₁ = .ok (a₁, s₁)) :
    Engine.ActualizePotentiality s₁ pid d₂
      = .ok (Engine.NewActuality s₁.nextID d₂ a₁.substanceID pid,
             { s₁ with
               actualities := s₁.actualities ++ [Engine.NewActuality s₁.nextID d₂ a₁.substanceID pid],
               nextID := s₁.nextID + 1 })
    ∧ (Engine.NewActuality s₁.nextID d₂ a₁.substanceID pid).id ≠ a₁.id
    ∧ a₁ ∈ s₁.actualities ∧ a₁.potentialityID = pid := by
  unfold Engine.ActualizePotentiality at h
  cases hcc : Engine.CheckConditions s pid with
  | error e =>
    rw [hcc] at h
    exact absurd h (by simp)
  | ok v =>
    rcases v with ⟨⟨ca, um⟩, sr⟩
    rw [hcc] at h
    cases ca with
    | false => simp at h
    | true =>
      obtain ⟨hsr, p, conds, hfp, hpc, heval⟩ := checkConditions_ok_inv hcc
      subst hsr
      simp only [Bool.not_true, Bool.false_eq_true, if_false] at h
      rw [hfp] at h
      simp only [Except.ok.injEq, Prod.mk.injEq] at h
      obtain ⟨ha, hs⟩ := h
      subst ha
      subst hs
      have hfp₂ : findPotentiality
          ({ sr with
             actualities := sr.actualities ++ [Engine.NewActuality sr.nextID d₁ p.substanceID pid],
             nextID := sr.nextID + 1 }) pid = some p := hfp
      have heval₂ : evalConditions
          ({ sr with
             actualities := sr.actualities ++ [Engine.NewActuality sr.nextID d₁ p.substanceID pid],
             nextID := sr.nextID + 1 }) p.substanceID conds = (true, um) := by
        rw [evalConditions_frame]
        exact heval
      have hcc₂ : Engine.CheckConditions
          ({ sr with
             actualities := sr.actualities ++ [Engine.NewActuality sr.nextID d₁ p.substanceID pid],
             nextID := sr.nextID + 1 }) pid
          = .ok ((true, um),
                 { sr with
                   actualities := sr.actualities ++ [Engine.NewActuality sr.nextID d₁ p.substanceID pid],
                   nextID := sr.nextID + 1 }) := by
        simp [Engine.CheckConditions, hfp₂, hpc, heval₂]
      refine ⟨?_, ?_, ?_, rfl⟩
      · unfold Engine.ActualizePotentiality
        rw [hcc₂]
        simp only [Bool.not_true, Bool.false_eq_true, if_false]
        rw [hfp₂]
        rfl
      · intro heq
        have h12 : sr.nextID + 1 = sr.nextID := genID_inj heq
        omega
      · exact List.mem_append_right sr.actualities (by simp)

/-- Concrete run of the C8 theorem: actualizing p1 a second time after a first successful actualization. -/
theorem actualize_twice_succeeds_checked :
    Engine.ActualizePotentiality storeAfterFirst "p1" "second"
      = .ok (Engine.NewActuality storeAfterFirst.nextID "second" firstAct.substanceID "p1",
             { storeAfterFirst with
               actualities := storeAfterFirst.actualities ++ [Engine.NewActuality storeAfterFirst.nextID "second" firstAct.substanceID "p1"],
               nextID := storeAfterFirst.nextID + 1 })
    ∧ (Engine.NewActuality storeAfterFirst.nextID "second" firstAct.substanceID "p1").id
        ≠ firstAct.id
    ∧ firstAct ∈ storeAfterFirst.actualities ∧ firstAct.potentialityID = "p1" :=
  actualize_twice_succeeds storeMet "p1" "first leaves" "second" firstAct storeAfterFirst rfl

/-- Claim C9: CheckConditions is side-effect free: for every store and identifier the store after the call is the input store (every stored record unchanged), a successful call returns the input store, and a missing potentiality yields the not-found error. -/
theorem checkConditions_effect_free (s : Store) (pid : String) :
    storeAfter s (Engine.CheckConditions s pid) = s
    ∧ (∀ r s', Engine.CheckConditions s pid = .ok (r, s') → s' = s)
    ∧ (findPotentiality s pid = none →
        Engine.CheckConditions s pid = .error .potentialityNotFound) := by
  refine ⟨?_, ?_, ?_⟩
  · cases hfp : findPotentiality s pid with
    | none => simp [Engine.CheckConditions, hfp, storeAfter]
    | some p =>
      cases hpc : parseConditions p.conditions with
      | none => simp [Engine.CheckConditions, hfp, hpc, storeAfter]
      | some conds => simp [Engine.CheckConditions, hfp, hpc, storeAfter]
  · intro r s' h
    rcases r with ⟨b, um⟩
    exact (checkConditions_ok_inv h).1
  · intro h
    simp [Engine.CheckConditions, h]

/-- Concrete runs of the C9 theorem: a successful check and a missing identifier. -/
theorem checkConditions_effect_free_checked :
    storeMet = storeMet
    ∧ Engine.CheckConditions storeMet "missing" = .error .potentialityNotFound :=
  ⟨(checkConditions_effect_free storeMet "p1").2.1 ((true, [])) storeMet rfl,
   (checkConditions_effect_free storeMet "missing").2.2 rfl⟩

/-- Claim C10: an edge pointing at the queried entity contributes its own to-endpoint, which is the queried entity itself: if some edge (W, X, k) is in the store and no later edge of kind k touches X, the causes summary for X maps k to X. -/
theorem edge_into_entity_reports_itself (s : Store) (x w k : String) (e : CausalRelation)
    (l₁ l₂ : List CausalRelation)
    (hrel : s.relations = l₁ ++ e :: l₂)
    (hfrom : e.fromEntity = w) (hto : e.toEntity = x) (hkind : e.causeType = k)
    (hlater : ∀ r ∈ l₂, r.causeType = k → r.fromEntity ≠ x ∧ r.toEntity ≠ x) :
    mapGet (Engine.GetFourCauses s x) k = some x := by
  rw [mapGet_getFourCauses]
  unfold relatedRelations
  rw [hrel]
  have hpe : (e.fromEntity == x || e.toEntity == x) = true := by simp [hto]
  have hpk : (e.causeType == k) = true := by simp [hkind]
  rw [List.filter_append,
      filter_cons_true (fun r : CausalRelation => r.fromEntity == x || r.toEntity == x) e l₂ hpe,
      List.filter_append,
      filter_cons_true (fun r : CausalRelation => r.causeType == k) e
        (l₂.filter (fun r : CausalRelation => r.fromEntity == x || r.toEntity == x)) hpk]
  have hnil : (l₂.filter (fun r : CausalRelation => r.fromEntity == x || r.toEntity == x)).filter
      (fun r : CausalRelation => r.causeType == k) = [] := by
    rw [List.filter_eq_nil_iff]
    intro r hr
    have hr₂ := List.mem_filter.mp hr
    intro hbk
    have hk' : r.causeType = k := by simpa using hbk
    obtain ⟨hf, ht⟩ := hlater r hr₂.1 hk'
    have hpr := hr₂.2
    simp only [Bool.or_eq_true, beq_iff_eq] at hpr
    rcases hpr with h' | h'
    · exact hf h'
    · exact ht h'
  rw [hnil, List.map_append, List.map_cons, List.map_nil, List.getLast?_concat, hto]

/-- Concrete run of the C10 theorem on a store holding the single edge (W, X, material). -/
theorem edge_into_entity_reports_itself_checked :
    mapGet (Engine.GetFourCauses storeEdgeWX "X") "material" = some "X" :=
  edge_into_entity_reports_itself storeEdgeWX "X" "W" "material" edgeWX [] [] rfl rfl rfl rfl
    (fun r hr => absurd hr (List.not_mem_nil r))

end OaaS
